import Mathlib

/-!
# Secure connect bundle pipeline (`secure_connect.go`)

A shallow embedding of `unmarshalBundle` and `getSecureBundleMetadata`.

The operating system and the Go standard library are the environment of the
code.  The file system is a map from absolute, cleaned paths (lists of path
elements below the root) to nodes; the calls the code makes into the
standard library (`zip.OpenReader`, `json.Unmarshal`, `http.Client.Get`,
`json.Decoder.Decode`) are fields of a `World`, so every theorem holds for all
of their behaviours.  Permission checks of the kernel and write errors of the
disk are not modelled.  Each function returns the file system it leaves
behind, and `unmarshalBundle` also returns the calls it made to
`setupTLSConfig` and `getSecureBundleMetadata`, in order, with their
arguments as they were at the time of the call.
-/

namespace SecureConnect

/-! ## Data model -/

/-- An absolute, cleaned path: the elements below the root directory. -/
abbrev Path := List String

/-- File contents and message bodies. -/
abbrev Bytes := String

/-- Go `error` values, by the call that produced them. -/
inductive Error where
  | os (op : String) (code : String)
  | zip (msg : String)
  | tls (msg : String)
  | http (msg : String)
  | json (msg : String)
  deriving DecidableEq

/-- A node of the file system: a regular file with permission bits and
contents, or a directory with permission bits. -/
inductive Node where
  | file (mode : Nat) (data : Bytes)
  | dir (mode : Nat)
  deriving DecidableEq

/-- The file system: what exists at each path. -/
abbrev FS := Path → Option Node

/-- One entry of an opened archive (`*zip.File`): its name, the permission
bits of `f.Mode()`, its decompressed bytes, the error of `f.Open()` if it
fails, and the error with which reading its contents ends if it is corrupt. -/
structure ZipFile where
  Name : String
  Mode : Nat
  Data : Bytes
  openErr : Option Error
  readErr : Option Error
  deriving DecidableEq

/-- The descriptor `config.json` is decoded into. -/
structure secureBundleConfig where
  Host : String
  Port : Int
  CaCertLocation : String
  KeyLocation : String
  CertLocation : String
  deriving DecidableEq

/-- The `contact_info` object of the metadata response. -/
structure ContactInfo where
  Typ : String
  LocalDC : String
  ContactPoints : List String
  SNIProxyAddress : String
  deriving DecidableEq

/-- The metadata response body is decoded into this. -/
structure secureBundleMetadata where
  Version : Int
  Region : String
  ContactInfo : ContactInfo
  deriving DecidableEq

/-- The argument of `setupTLSConfig`, with the paths already joined. -/
structure SslOptions where
  CertPath : Path
  KeyPath : Path
  CaPath : Path
  EnableHostVerification : Bool
  deriving DecidableEq

/-- The fields of `tls.Config` the pipeline touches: the client certificate
and key, the CA pool, and the verification switch. -/
structure TlsConfig where
  Certificate : Bytes
  Key : Bytes
  RootCAs : Bytes
  InsecureSkipVerify : Bool
  deriving DecidableEq

/-- The part of `SNIConfig` built here. -/
structure SNIConfig where
  SNIProxyAddress : String
  tlsConfig : TlsConfig
  deriving DecidableEq

/-- An HTTP response: status code and body. -/
structure Response where
  StatusCode : Nat
  Body : Bytes
  deriving DecidableEq

/-- A call `unmarshalBundle` makes to one of its collaborators. -/
inductive Event where
  | setupTLSConfig (opts : SslOptions)
  | getSecureBundleMetadata (endpoint : String) (tlsConfig : TlsConfig)
  deriving DecidableEq

/-- The environment of one call. -/
structure World where
  /-- the file system before the call -/
  fs : FS
  /-- the process umask -/
  umask : Nat
  /-- `zip.OpenReader`: the entries of the archive, or an error -/
  zipOpenReader : String → Except Error (List ZipFile)
  /-- the names `ioutil.TempDir` draws, in the order it tries them -/
  tempNames : List Path
  /-- `json.Unmarshal` into a `secureBundleConfig`: the struct as left by the
  decoder, and the error it returns -/
  jsonUnmarshalConfig : Bytes → secureBundleConfig × Option Error
  /-- the check of the TLS library that certificate, key and CA parse and fit -/
  credentialsOk : Bytes → Bytes → Bytes → Bool
  /-- `client.Get`: the response, or a transport error -/
  httpGet : String → TlsConfig → Except Error Response
  /-- `json.NewDecoder(body).Decode` into a `secureBundleMetadata`: the struct
  as left by the decoder, and the error it returns -/
  jsonDecodeMetadata : Bytes → secureBundleMetadata × Option Error

/-- What a call of `unmarshalBundle` leaves behind: the returned values, the
file system, and the calls made to the collaborators. -/
structure Outcome where
  result : Except Error (List String × SNIConfig)
  fs : FS
  trace : List Event

/-! ## Paths -/

/-- Split a name at every slash. -/
def splitSlash : List Char → List (List Char)
  | [] => [[]]
  | c :: cs =>
    match splitSlash cs with
    | [] => [[]]
    | h :: t => if c = '/' then [] :: h :: t else (c :: h) :: t

/-- The elements of a slash-separated name. -/
def elements (name : String) : List String :=
  (splitSlash name.toList).map String.mk

/-- One step of `Clean` on a rooted path, the elements kept so far in reverse:
empty and `.` elements are dropped, `..` removes the element before it and is
dropped at the root. -/
def cleanStep (acc : List String) (e : String) : List String :=
  if e = "" ∨ e = "." then acc
  else if e = ".." then acc.tail
  else e :: acc

/-- `path.Clean` on a rooted path given by its elements. -/
def Clean (elems : List String) : Path :=
  (elems.foldl cleanStep []).reverse

/-- `filepath.Join(dir, name)` for an absolute `dir`: the two are joined by a
slash and the result is cleaned. -/
def Join (dir : Path) (name : String) : Path :=
  Clean (dir ++ elements name)

/-- `filepath.Dir` of a cleaned absolute path: the path without its last
element, the root for the root. -/
def Dir (p : Path) : Path :=
  p.dropLast

/-- Whether `p` is `dir` or lies below it. -/
def within : Path → Path → Bool
  | [], _ => true
  | _ :: _, [] => false
  | d :: ds, q :: qs => d == q && within ds qs

/-! ## File system operations -/

/-- The file system with node `n` at path `p`. -/
def FS.set (fs : FS) (p : Path) (n : Node) : FS :=
  fun q => if q = p then some n else fs q

/-- Permission bits a new node gets: those asked for, without the umask. -/
def createMode (umask perm : Nat) : Nat :=
  perm &&& (0o777 ^^^ (umask &&& 0o777))

/-- `os.Mkdir` where the parent exists, with the second look `MkdirAll` takes
when it fails: an existing directory is accepted. -/
def Mkdir (umask perm : Nat) (fs : FS) (p : Path) : FS × Option Error :=
  match fs p with
  | none => (fs.set p (.dir (createMode umask perm)), none)
  | some (.dir _) => (fs, none)
  | some (.file _ _) => (fs, some (.os "mkdir" "EEXIST"))

/-- `os.MkdirAll` on the reversed path: an existing directory is success, an
existing file is `ENOTDIR`, otherwise the parent is made first and then the
directory itself. -/
def MkdirAllRev (umask perm : Nat) : List String → FS → FS × Option Error
  | [], fs => (fs, none)
  | e :: parent, fs =>
    match fs (e :: parent).reverse with
    | some (.dir _) => (fs, none)
    | some (.file _ _) => (fs, some (.os "mkdir" "ENOTDIR"))
    | none =>
      match MkdirAllRev umask perm parent fs with
      | (fs1, some err) => (fs1, some err)
      | (fs1, none) => Mkdir umask perm fs1 (e :: parent).reverse

/-- `os.MkdirAll(path, perm)`. -/
def MkdirAll (umask perm : Nat) (p : Path) (fs : FS) : FS × Option Error :=
  MkdirAllRev umask perm p.reverse fs

/-- `os.OpenFile(p, O_WRONLY|O_CREATE|O_TRUNC, perm)` in an existing parent
directory: a directory cannot be opened for writing, an existing file is
truncated and keeps its mode, a new file gets `perm` without the umask. -/
def OpenFile (umask : Nat) (fs : FS) (p : Path) (perm : Nat) : FS × Option Error :=
  match fs p with
  | some (.dir _) => (fs, some (.os "open" "EISDIR"))
  | some (.file m _) => (fs.set p (.file m ""), none)
  | none => (fs.set p (.file (createMode umask perm) ""), none)

/-- Writing `data` through the handle of the open, truncated file at `p`. -/
def writeFile (fs : FS) (p : Path) (data : Bytes) : FS :=
  match fs p with
  | some (.file m _) => fs.set p (.file m data)
  | _ => fs

/-- `os.RemoveAll(dir)`: `dir` and everything below it is gone. -/
def RemoveAll (dir : Path) (fs : FS) : FS :=
  fun p => if within dir p then none else fs p

/-- `ioutil.TempDir("", "securezip")`: the first name drawn that does not
exist is created as a directory with mode `0700`; when every name drawn
exists the call fails. -/
def TempDir (umask : Nat) (names : List Path) (fs : FS) : Except Error (Path × FS) :=
  match names.find? (fun p => (fs p).isNone) with
  | none => .error (.os "mkdirtemp" "EEXIST")
  | some dir => .ok (dir, fs.set dir (.dir (createMode umask 0o700)))

/-- `os.Open(p)` for reading: whatever exists at `p` can be opened. -/
def Open (fs : FS) (p : Path) : Except Error Node :=
  match fs p with
  | none => .error (.os "open" "ENOENT")
  | some n => .ok n

/-- `ioutil.ReadAll(file)`: the bytes read, and the error when the handle is
a directory. -/
def ReadAll : Node → Bytes × Option Error
  | .file _ data => (data, none)
  | .dir _ => ("", some (.os "read" "EISDIR"))

/-- Contents of the regular file at `p`, as `ioutil.ReadFile` gives them. -/
def ReadFile (fs : FS) (p : Path) : Option Bytes :=
  match fs p with
  | some (.file _ data) => some data
  | _ => none

/-! ## The pipeline -/

/-- Modelled from the spec: `setupTLSConfig`, the trust context builder, is
defined elsewhere in the repository.  The spec gives its interface: from
certificate, key and CA paths and a peer verification flag it loads the three
files and returns a TLS client context, or fails when a file is unreadable or
the material is malformed; peer verification is enabled in the context when
the flag is set. -/
def setupTLSConfig (credentialsOk : Bytes → Bytes → Bytes → Bool) (fs : FS)
    (sslOpts : SslOptions) : Except Error TlsConfig :=
  match ReadFile fs sslOpts.CaPath, ReadFile fs sslOpts.CertPath, ReadFile fs sslOpts.KeyPath with
  | some ca, some cert, some key =>
    if credentialsOk cert key ca then
      .ok { Certificate := cert, Key := key, RootCAs := ca,
            InsecureSkipVerify := !sslOpts.EnableHostVerification }
    else .error (.tls "malformed credential material")
  | _, _, _ => .error (.tls "unable to load credential files")

/-- The function `getSecureBundleMetadata`: one GET on `endpoint`; a
transport error is returned; the branch on `resp.StatusCode > 299` is empty in
the source (its body is commented out), so every status goes on to the
decoder; the error of `Decode` is not looked at and the struct is returned as
the decoder left it, with a nil error. -/
def getSecureBundleMetadata (w : World) (endpoint : String) (tlsConfig : TlsConfig) :
    Except Error secureBundleMetadata :=
  match w.httpGet endpoint tlsConfig with
  | .error err => .error err
  | .ok resp =>
    let decoded := w.jsonDecodeMetadata resp.Body
    if resp.StatusCode > 299 then .ok decoded.1 else .ok decoded.1

/-- The body of the extraction loop for one entry: the destination is the
staging directory joined with the entry name; its parent directories are
made, the file is opened for writing with the mode of the entry, the entry is
opened and its bytes are copied.  The file system is returned together with
the error that ends the call, if any. -/
def extractEntry (umask : Nat) (dir : Path) (fs : FS) (f : ZipFile) : FS × Option Error :=
  let fpath := Join dir f.Name
  match MkdirAll umask 0o777 (Dir fpath) fs with
  | (fs1, some err) => (fs1, some err)
  | (fs1, none) =>
    match OpenFile umask fs1 fpath f.Mode with
    | (fs2, some err) => (fs2, some err)
    | (fs2, none) =>
      match f.openErr with
      | some err => (fs2, some err)
      | none => (writeFile fs2 fpath f.Data, f.readErr)

/-- The extraction loop `for _, f := range r.File`: it stops at the first
error. -/
def extractAll (umask : Nat) (dir : Path) : FS → List ZipFile → FS × Option Error
  | fs, [] => (fs, none)
  | fs, f :: rest =>
    match extractEntry umask dir fs f with
    | (fs1, some err) => (fs1, some err)
    | (fs1, none) => extractAll umask dir fs1 rest

/-- The string `fmt.Sprintf("https://%s:%d/metadata", config.Host, config.Port)`. -/
def metadataURL (config : secureBundleConfig) : String :=
  "https://" ++ config.Host ++ ":" ++ toString config.Port ++ "/metadata"

/-- The options `unmarshalBundle` hands to `setupTLSConfig`. -/
def sslOptions (dir : Path) (config : secureBundleConfig) : SslOptions :=
  { CertPath := Join dir config.CertLocation,
    KeyPath := Join dir config.KeyLocation,
    CaPath := Join dir config.CaCertLocation,
    EnableHostVerification := true }

/-- The function `unmarshalBundle`.  The deferred `os.RemoveAll(dir)` runs on
every return after the staging directory was made. -/
def unmarshalBundle (w : World) (bundleName : String) : Outcome :=
  match w.zipOpenReader bundleName with
  | .error err => ⟨.error err, w.fs, []⟩
  | .ok files =>
    match TempDir w.umask w.tempNames w.fs with
    | .error err => ⟨.error err, w.fs, []⟩
    | .ok (dir, fs0) =>
      match extractAll w.umask dir fs0 files with
      | (fs1, some err) => ⟨.error err, RemoveAll dir fs1, []⟩
      | (fs1, none) =>
        match Open fs1 (Join dir "config.json") with
        | .error err => ⟨.error err, RemoveAll dir fs1, []⟩
        | .ok file =>
          let byteValue := (ReadAll file).1
          let config := (w.jsonUnmarshalConfig byteValue).1
          let url := metadataURL config
          let sslOpts := sslOptions dir config
          match setupTLSConfig w.credentialsOk fs1 sslOpts with
          | .error err => ⟨.error err, RemoveAll dir fs1, [.setupTLSConfig sslOpts]⟩
          | .ok tlsConfig =>
            match getSecureBundleMetadata w url tlsConfig with
            | .error err =>
              ⟨.error err, RemoveAll dir fs1,
                [.setupTLSConfig sslOpts, .getSecureBundleMetadata url tlsConfig]⟩
            | .ok metadata =>
              ⟨.ok (metadata.ContactInfo.ContactPoints,
                  { SNIProxyAddress := metadata.ContactInfo.SNIProxyAddress,
                    tlsConfig := { tlsConfig with InsecureSkipVerify := true } }),
                RemoveAll dir fs1,
                [.setupTLSConfig sslOpts, .getSecureBundleMetadata url tlsConfig]⟩

/-! ## Concrete worlds -/

/-- A file system with only the directory `/tmp`. -/
def fsTmp : FS :=
  fun p => if p = ["tmp"] then some (.dir 0o777) else none

/-- The staging directory of the concrete worlds. -/
def stagingDir : Path := ["tmp", "securezip1"]

/-- The descriptor of the example bundle. -/
def exampleConfig : secureBundleConfig :=
  { Host := "db.example.com", Port := 9042, CaCertLocation := "ca.crt",
    KeyLocation := "key", CertLocation := "cert" }

/-- The bytes of the example `config.json`. -/
def exampleConfigJson : Bytes :=
  "\x7b\"host\":\"db.example.com\",\"port\":9042,\"caCertLocation\":\"ca.crt\",\"keyLocation\":\"key\",\"certLocation\":\"cert\"\x7d"

/-- A descriptor that names the credential files and leaves out host and
port. -/
def noHostConfig : secureBundleConfig :=
  { Host := "", Port := 0, CaCertLocation := "ca.crt", KeyLocation := "key",
    CertLocation := "cert" }

/-- The bytes of a `config.json` without host and port. -/
def noHostConfigJson : Bytes :=
  "\x7b\"caCertLocation\":\"ca.crt\",\"keyLocation\":\"key\",\"certLocation\":\"cert\"\x7d"

/-- The zero value of `secureBundleConfig`. -/
def zeroConfig : secureBundleConfig :=
  { Host := "", Port := 0, CaCertLocation := "", KeyLocation := "", CertLocation := "" }

/-- The zero value of `secureBundleMetadata`. -/
def zeroMetadata : secureBundleMetadata :=
  { Version := 0, Region := "",
    ContactInfo := { Typ := "", LocalDC := "", ContactPoints := [], SNIProxyAddress := "" } }

/-- The metadata of the example cluster. -/
def exampleMetadata : secureBundleMetadata :=
  { Version := 0, Region := "",
    ContactInfo := { Typ := "", LocalDC := "", ContactPoints := ["10.0.0.1", "10.0.0.2"],
                     SNIProxyAddress := "proxy.h:443" } }

/-- The body of the example metadata response. -/
def exampleMetadataJson : Bytes :=
  "\x7b\"contact_info\":\x7b\"contact_points\":[\"10.0.0.1\",\"10.0.0.2\"],\"sni_proxy_address\":\"proxy.h:443\"\x7d\x7d"

/-- What `json.Unmarshal` does on the descriptors used below: the two valid
documents decode without error, anything else is a syntax error that leaves
the struct at its zero value. -/
def decodeConfig (b : Bytes) : secureBundleConfig × Option Error :=
  if b = exampleConfigJson then (exampleConfig, none)
  else if b = noHostConfigJson then (noHostConfig, none)
  else (zeroConfig, some (.json "invalid character"))

/-- What `Decode` does on the response bodies used below: the example
document decodes without error, anything else is a syntax error that leaves
the struct at its zero value. -/
def decodeMetadata (b : Bytes) : secureBundleMetadata × Option Error :=
  if b = exampleMetadataJson then (exampleMetadata, none)
  else (zeroMetadata, some (.json "invalid character"))

/-- A regular archive entry. -/
def entry (name : String) (mode : Nat) (data : Bytes) : ZipFile :=
  { Name := name, Mode := mode, Data := data, openErr := none, readErr := none }

/-- The credential entries of the example bundle. -/
def credentialFiles : List ZipFile :=
  [entry "ca.crt" 0o644 "CA", entry "cert" 0o644 "CERT", entry "key" 0o600 "KEY"]

/-- The entries of the example bundle. -/
def exampleFiles : List ZipFile :=
  entry "config.json" 0o644 exampleConfigJson :: credentialFiles

/-- A world around one archive `bundle.zip` with the given entries and one
answer of the metadata endpoint, whatever the URL: the file system holds
`/tmp`, the umask is `022`, and the staging directory is `/tmp/securezip1`. -/
def worldOf (files : List ZipFile) (answer : Except Error Response) : World :=
  { fs := fsTmp,
    umask := 0o022,
    zipOpenReader := fun name =>
      if name = "bundle.zip" then .ok files else .error (.zip "no such file"),
    tempNames := [stagingDir],
    jsonUnmarshalConfig := decodeConfig,
    credentialsOk := fun cert key ca => cert == "CERT" && key == "KEY" && ca == "CA",
    httpGet := fun _ _ => answer,
    jsonDecodeMetadata := decodeMetadata }

/-- A world in which every stage succeeds: the example bundle, and a metadata
endpoint that answers 200 with the example metadata. -/
def exampleWorld : World :=
  worldOf exampleFiles (.ok ⟨200, exampleMetadataJson⟩)

/-- The strict TLS context of the concrete worlds. -/
def strictTls : TlsConfig :=
  { Certificate := "CERT", Key := "KEY", RootCAs := "CA", InsecureSkipVerify := false }

/-- The example bundle with one more entry, whose name climbs out of the
staging directory. -/
def traversalFiles : List ZipFile :=
  exampleFiles ++ [entry "../../evil" 0o644 "EVIL"]

/-- The example world with the climbing entry in the archive. -/
def traversalWorld : World :=
  worldOf traversalFiles (.ok ⟨200, exampleMetadataJson⟩)

/-- The example world with a metadata endpoint that answers 500. -/
def status500World : World :=
  worldOf exampleFiles (.ok ⟨500, "Internal Server Error"⟩)

/-- A bundle whose `config.json` is not JSON. -/
def malformedFiles : List ZipFile :=
  entry "config.json" 0o644 "not json" :: credentialFiles

/-- A world around the bundle with the malformed descriptor. -/
def malformedWorld : World :=
  worldOf malformedFiles (.ok ⟨200, exampleMetadataJson⟩)

/-- The example world with a metadata endpoint that answers 200 with a body
that is not JSON. -/
def badBodyWorld : World :=
  worldOf exampleFiles (.ok ⟨200, "not json"⟩)

/-- A bundle whose `config.json` leaves out host and port. -/
def noHostFiles : List ZipFile :=
  entry "config.json" 0o644 noHostConfigJson :: credentialFiles

/-- A world around the bundle without host and port; nothing listens on
port 0, so the request fails to connect. -/
def noHostWorld : World :=
  worldOf noHostFiles (.error (.http "dial tcp :0: connect: connection refused"))

/-- An archive with two entries of the same name. -/
def duplicateFiles : List ZipFile :=
  [entry "x" 0o644 "A", entry "x" 0o600 "B"]

/-- The file system of the concrete worlds once the staging directory is
made. -/
def stagedFs : FS :=
  fsTmp.set stagingDir (.dir 0o700)

/-! ## The file system under extraction -/

/-- A file system grows into another when every path keeps its node or, having
none, gets a directory. -/
def Grows (fs fs1 : FS) : Prop :=
  ∀ q, fs1 q = fs q ∨ (fs q = none ∧ ∃ m, fs1 q = some (.dir m))

theorem FS.set_same (fs : FS) (p : Path) (n : Node) : (fs.set p n) p = some n := by
  simp [FS.set]

theorem FS.set_other (fs : FS) (p q : Path) (n : Node) (h : q ≠ p) :
    (fs.set p n) q = fs q := by
  simp [FS.set, h]

theorem Grows.refl (fs : FS) : Grows fs fs := fun _ => Or.inl rfl

theorem Grows.trans {a b c : FS} (hab : Grows a b) (hbc : Grows b c) : Grows a c := by
  intro q
  rcases hab q with h1 | ⟨h1, m, hm⟩
  · rcases hbc q with h2 | ⟨h2, m, hm⟩
    · exact Or.inl (h2.trans h1)
    · exact Or.inr ⟨h1 ▸ h2, m, hm⟩
  · rcases hbc q with h2 | ⟨h2, m2, hm2⟩
    · exact Or.inr ⟨h1, m, h2.trans hm⟩
    · rw [hm] at h2
      cases h2

theorem Mkdir_grows (umask perm : Nat) (fs : FS) (p : Path) :
    Grows fs (Mkdir umask perm fs p).1 := by
  intro q
  unfold Mkdir
  cases hp : fs p with
  | none =>
    by_cases hq : q = p
    · subst hq
      exact Or.inr ⟨hp, _, FS.set_same _ _ _⟩
    · exact Or.inl (FS.set_other _ _ _ _ hq)
  | some n =>
    cases n <;> exact Or.inl rfl

theorem MkdirAllRev_grows (umask perm : Nat) (rp : List String) (fs : FS) :
    Grows fs (MkdirAllRev umask perm rp fs).1 := by
  induction rp with
  | nil => exact Grows.refl fs
  | cons e parent ih =>
    unfold MkdirAllRev
    cases hp : fs (e :: parent).reverse with
    | some n => cases n <;> exact Grows.refl fs
    | none =>
      simp only
      cases hrec : MkdirAllRev umask perm parent fs with
      | mk fs1 err =>
        have h1 : Grows fs fs1 := by
          have := ih
          rw [hrec] at this
          exact this
        cases err with
        | some err => exact h1
        | none => exact h1.trans (Mkdir_grows umask perm fs1 _)

theorem MkdirAll_grows (umask perm : Nat) (p : Path) (fs : FS) :
    Grows fs (MkdirAll umask perm p fs).1 :=
  MkdirAllRev_grows umask perm p.reverse fs

theorem OpenFile_other (umask : Nat) (fs : FS) (p q : Path) (perm : Nat) (h : q ≠ p) :
    (OpenFile umask fs p perm).1 q = fs q := by
  unfold OpenFile
  cases hp : fs p with
  | none => exact FS.set_other _ _ _ _ h
  | some n => cases n <;> first | exact FS.set_other _ _ _ _ h | rfl

theorem OpenFile_done (umask : Nat) (fs : FS) (p : Path) (perm : Nat)
    (h : (OpenFile umask fs p perm).2 = none) :
    (∃ m d, fs p = some (.file m d) ∧ (OpenFile umask fs p perm).1 p = some (.file m "")) ∨
    (fs p = none ∧ (OpenFile umask fs p perm).1 p = some (.file (createMode umask perm) "")) := by
  unfold OpenFile at h ⊢
  cases hp : fs p with
  | none => exact Or.inr ⟨rfl, FS.set_same _ _ _⟩
  | some n =>
    cases n with
    | file m d => exact Or.inl ⟨m, d, rfl, FS.set_same _ _ _⟩
    | dir m => simp [hp] at h

theorem writeFile_other (fs : FS) (p q : Path) (data : Bytes) (h : q ≠ p) :
    writeFile fs p data q = fs q := by
  unfold writeFile
  cases hp : fs p with
  | none => rfl
  | some n => cases n <;> first | exact FS.set_other _ _ _ _ h | rfl

theorem writeFile_file (fs : FS) (p : Path) (m : Nat) (d data : Bytes)
    (h : fs p = some (.file m d)) : writeFile fs p data p = some (.file m data) := by
  unfold writeFile
  rw [h]
  exact FS.set_same _ _ _

/-- Away from the destination of the entry, one round of the loop keeps every
node or puts a directory where nothing was. -/
theorem extractEntry_other (umask : Nat) (dir : Path) (fs : FS) (f : ZipFile) (q : Path)
    (hq : q ≠ Join dir f.Name) :
    (extractEntry umask dir fs f).1 q = fs q ∨
      (fs q = none ∧ ∃ m, (extractEntry umask dir fs f).1 q = some (.dir m)) := by
  have hg := MkdirAll_grows umask 0o777 (Dir (Join dir f.Name)) fs q
  unfold extractEntry
  simp only
  cases h1 : MkdirAll umask 0o777 (Dir (Join dir f.Name)) fs with
  | mk fs1 e1 =>
    rw [h1] at hg
    cases e1 with
    | some err => exact hg
    | none =>
      simp only
      have ho := OpenFile_other umask fs1 (Join dir f.Name) q f.Mode hq
      cases h2 : OpenFile umask fs1 (Join dir f.Name) f.Mode with
      | mk fs2 e2 =>
        rw [h2] at ho
        simp only at ho
        cases e2 with
        | some err => simpa [ho] using hg
        | none =>
          simp only
          cases f.openErr with
          | some err => simpa [ho] using hg
          | none =>
            simp only
            rw [writeFile_other _ _ _ _ hq, ho]
            exact hg

/-- A round of the loop that ends without error leaves a regular file with the
bytes of the entry at its destination; the file is new, with the mode of the
entry without the umask, unless a regular file was there before, whose mode
is kept. -/
theorem extractEntry_dest (umask : Nat) (dir : Path) (fs : FS) (f : ZipFile)
    (h : (extractEntry umask dir fs f).2 = none) :
    (∃ m d, fs (Join dir f.Name) = some (.file m d) ∧
      (extractEntry umask dir fs f).1 (Join dir f.Name) = some (.file m f.Data)) ∨
    (fs (Join dir f.Name) = none ∧
      (extractEntry umask dir fs f).1 (Join dir f.Name) =
        some (.file (createMode umask f.Mode) f.Data)) := by
  have hg := MkdirAll_grows umask 0o777 (Dir (Join dir f.Name)) fs (Join dir f.Name)
  unfold extractEntry at h ⊢
  simp only at h ⊢
  cases h1 : MkdirAll umask 0o777 (Dir (Join dir f.Name)) fs with
  | mk fs1 e1 =>
    rw [h1] at hg h
    cases e1 with
    | some err => simp at h
    | none =>
      simp only at h hg ⊢
      have hd := OpenFile_done umask fs1 (Join dir f.Name) f.Mode
      cases h2 : OpenFile umask fs1 (Join dir f.Name) f.Mode with
      | mk fs2 e2 =>
        rw [h2] at hd h
        cases e2 with
        | some err => simp at h
        | none =>
          simp only at h hd ⊢
          cases h3 : f.openErr with
          | some err => simp [h3] at h
          | none =>
            simp only
            rcases hd trivial with ⟨m, d, hm, hfs2⟩ | ⟨hn, hfs2⟩
            · rcases hg with hg | ⟨_, m1, hm1⟩
              · left
                exact ⟨m, d, hg ▸ hm, writeFile_file _ _ _ _ _ hfs2⟩
              · rw [hm1] at hm
                cases hm
            · rcases hg with hg | ⟨_, m1, hm1⟩
              · right
                exact ⟨hg ▸ hn, writeFile_file _ _ _ _ _ hfs2⟩
              · rw [hm1] at hn
                cases hn

theorem extractAll_cons (umask : Nat) (dir : Path) (fs : FS) (f : ZipFile)
    (rest : List ZipFile) :
    extractAll umask dir fs (f :: rest) =
      if (extractEntry umask dir fs f).2 = none then
        extractAll umask dir (extractEntry umask dir fs f).1 rest
      else extractEntry umask dir fs f := by
  rw [extractAll]
  cases h : extractEntry umask dir fs f with
  | mk fs1 e1 => cases e1 <;> simp

/-- A regular file that is the destination of none of the entries is left as
it is by the loop. -/
theorem extractAll_keeps (umask : Nat) (dir : Path) (files : List ZipFile) (fs : FS)
    (q : Path) (m : Nat) (d : Bytes) (hq : fs q = some (.file m d))
    (hne : ∀ g ∈ files, Join dir g.Name ≠ q) :
    (extractAll umask dir fs files).1 q = some (.file m d) := by
  induction files generalizing fs with
  | nil => simpa [extractAll] using hq
  | cons f rest ih =>
    have hf : q ≠ Join dir f.Name := fun h => hne f (List.mem_cons_self _ _) h.symm
    have h1 : (extractEntry umask dir fs f).1 q = some (.file m d) := by
      rcases extractEntry_other umask dir fs f q hf with h | ⟨h, _⟩
      · rw [h, hq]
      · rw [hq] at h
        cases h
    rw [extractAll_cons]
    split
    · exact ih _ h1 (fun g hg => hne g (List.mem_cons_of_mem _ hg))
    · exact h1

/-! ## The stages of `unmarshalBundle` -/

/-- Once the staging directory was made, the call leaves the file system the
extraction loop left, without the staging directory. -/
theorem unmarshalBundle_fs (w : World) (b : String) (files : List ZipFile) (dir : Path)
    (fs0 : FS) (hzip : w.zipOpenReader b = .ok files)
    (htmp : TempDir w.umask w.tempNames w.fs = .ok (dir, fs0)) :
    (unmarshalBundle w b).fs = RemoveAll dir (extractAll w.umask dir fs0 files).1 := by
  unfold unmarshalBundle
  simp only [hzip, htmp]
  cases hext : extractAll w.umask dir fs0 files with
  | mk fs1 e1 =>
    cases e1 with
    | some err => rfl
    | none =>
      simp only
      cases Open fs1 (Join dir "config.json") with
      | error err => rfl
      | ok file =>
        simp only
        cases setupTLSConfig w.credentialsOk fs1
            (sslOptions dir (w.jsonUnmarshalConfig (ReadAll file).1).1) with
        | error err => rfl
        | ok tls =>
          simp only
          cases getSecureBundleMetadata w
              (metadataURL (w.jsonUnmarshalConfig (ReadAll file).1).1) tls with
          | error err => rfl
          | ok md => rfl

/-- When the stages up to the TLS context succeed, the call hands the endpoint
built from the descriptor and the TLS context to `getSecureBundleMetadata`,
and returns its error or the values assembled from its metadata. -/
theorem unmarshalBundle_fetch (w : World) (b : String) (files : List ZipFile) (dir : Path)
    (fs0 fs1 : FS) (file : Node) (tls : TlsConfig)
    (hzip : w.zipOpenReader b = .ok files)
    (htmp : TempDir w.umask w.tempNames w.fs = .ok (dir, fs0))
    (hext : extractAll w.umask dir fs0 files = (fs1, none))
    (hopen : Open fs1 (Join dir "config.json") = .ok file)
    (htls : setupTLSConfig w.credentialsOk fs1
      (sslOptions dir (w.jsonUnmarshalConfig (ReadAll file).1).1) = .ok tls) :
    unmarshalBundle w b =
      ⟨match getSecureBundleMetadata w
            (metadataURL (w.jsonUnmarshalConfig (ReadAll file).1).1) tls with
        | .error err => .error err
        | .ok metadata =>
          .ok (metadata.ContactInfo.ContactPoints,
            { SNIProxyAddress := metadata.ContactInfo.SNIProxyAddress,
              tlsConfig := { tls with InsecureSkipVerify := true } }),
        RemoveAll dir fs1,
        [.setupTLSConfig (sslOptions dir (w.jsonUnmarshalConfig (ReadAll file).1).1),
         .getSecureBundleMetadata
           (metadataURL (w.jsonUnmarshalConfig (ReadAll file).1).1) tls]⟩ := by
  unfold unmarshalBundle
  simp only [hzip, htmp, hext, hopen, htls]
  cases getSecureBundleMetadata w
      (metadataURL (w.jsonUnmarshalConfig (ReadAll file).1).1) tls <;> rfl

/-- A call that returns values went through every stage. -/
theorem unmarshalBundle_ok_stages (w : World) (b : String) (r : List String × SNIConfig)
    (h : (unmarshalBundle w b).result = .ok r) :
    ∃ files dir fs0 fs1 file tls,
      w.zipOpenReader b = .ok files ∧
      TempDir w.umask w.tempNames w.fs = .ok (dir, fs0) ∧
      extractAll w.umask dir fs0 files = (fs1, none) ∧
      Open fs1 (Join dir "config.json") = .ok file ∧
      setupTLSConfig w.credentialsOk fs1
        (sslOptions dir (w.jsonUnmarshalConfig (ReadAll file).1).1) = .ok tls := by
  cases hzip : w.zipOpenReader b with
  | error err => simp [unmarshalBundle, hzip] at h
  | ok files =>
    cases htmp : TempDir w.umask w.tempNames w.fs with
    | error err => simp [unmarshalBundle, hzip, htmp] at h
    | ok x =>
      obtain ⟨dir, fs0⟩ := x
      cases hext : extractAll w.umask dir fs0 files with
      | mk fs1 e1 =>
        cases e1 with
        | some err => simp [unmarshalBundle, hzip, htmp, hext] at h
        | none =>
          cases hopen : Open fs1 (Join dir "config.json") with
          | error err => simp [unmarshalBundle, hzip, htmp, hext, hopen] at h
          | ok file =>
            cases htls : setupTLSConfig w.credentialsOk fs1
                (sslOptions dir (w.jsonUnmarshalConfig (ReadAll file).1).1) with
            | error err => simp [unmarshalBundle, hzip, htmp, hext, hopen, htls] at h
            | ok tls =>
              refine ⟨files, dir, fs0, fs1, file, tls, ?_, ?_, ?_, ?_, ?_⟩ <;>
                first | assumption | rfl

theorem setupTLSConfig_strict (ok : Bytes → Bytes → Bytes → Bool) (fs : FS)
    (opts : SslOptions) (tls : TlsConfig) (h : setupTLSConfig ok fs opts = .ok tls) :
    tls.InsecureSkipVerify = !opts.EnableHostVerification := by
  unfold setupTLSConfig at h
  split at h
  · split at h
    · cases h
      rfl
    · cases h
  · cases h

/-! ## The claims -/

/-- C5: whenever the staging directory was made, on every outcome of
`unmarshalBundle`, success or error at any later stage, neither the staging
directory nor anything below it exists in the file system the call leaves. -/
theorem unmarshalBundle_staging_removed (w : World) (b : String) (files : List ZipFile)
    (dir : Path) (fs0 : FS) (hzip : w.zipOpenReader b = .ok files)
    (htmp : TempDir w.umask w.tempNames w.fs = .ok (dir, fs0)) :
    ∀ p, within dir p = true → (unmarshalBundle w b).fs p = none := by
  intro p hp
  rw [unmarshalBundle_fs w b files dir fs0 hzip htmp]
  simp [RemoveAll, hp]

/-- Witness for C5 in the example world: the key file is staged by the loop
and gone, with the staging directory, when the call returns. -/
theorem unmarshalBundle_staging_removed_witness :
    (extractAll 0o022 stagingDir stagedFs exampleFiles).1 ["tmp", "securezip1", "key"] =
        some (.file 0o600 "KEY") ∧
      (unmarshalBundle exampleWorld "bundle.zip").fs ["tmp", "securezip1", "key"] = none ∧
      (unmarshalBundle exampleWorld "bundle.zip").fs stagingDir = none :=
  ⟨by decide,
   unmarshalBundle_staging_removed exampleWorld "bundle.zip" exampleFiles stagingDir stagedFs
     rfl rfl _ (by decide),
   unmarshalBundle_staging_removed exampleWorld "bundle.zip" exampleFiles stagingDir stagedFs
     rfl rfl _ (by decide)⟩

/-- C9: when the archive opens, the staging directory is made, the loop ends
without error, `config.json` opens, the TLS context is built and the request
is answered, `unmarshalBundle` returns no error, the contact points of the
decoded metadata, in order, and an `SNIConfig` with its proxy address. -/
theorem unmarshalBundle_result (w : World) (b : String) (files : List ZipFile) (dir : Path)
    (fs0 fs1 : FS) (file : Node) (tls : TlsConfig) (resp : Response)
    (m : secureBundleMetadata)
    (hzip : w.zipOpenReader b = .ok files)
    (htmp : TempDir w.umask w.tempNames w.fs = .ok (dir, fs0))
    (hext : extractAll w.umask dir fs0 files = (fs1, none))
    (hopen : Open fs1 (Join dir "config.json") = .ok file)
    (htls : setupTLSConfig w.credentialsOk fs1
      (sslOptions dir (w.jsonUnmarshalConfig (ReadAll file).1).1) = .ok tls)
    (hget : w.httpGet (metadataURL (w.jsonUnmarshalConfig (ReadAll file).1).1) tls = .ok resp)
    (hm : (w.jsonDecodeMetadata resp.Body).1 = m) :
    ∃ sni, (unmarshalBundle w b).result = .ok (m.ContactInfo.ContactPoints, sni) ∧
      sni.SNIProxyAddress = m.ContactInfo.SNIProxyAddress := by
  rw [unmarshalBundle_fetch w b files dir fs0 fs1 file tls hzip htmp hext hopen htls]
  simp only [getSecureBundleMetadata, hget, hm, ite_self]
  exact ⟨_, rfl, rfl⟩

/-- Witness for C9: the example bundle and the example metadata give exactly
the two contact points and the proxy address. -/
theorem unmarshalBundle_result_witness :
    ∃ sni, (unmarshalBundle exampleWorld "bundle.zip").result =
        .ok (["10.0.0.1", "10.0.0.2"], sni) ∧ sni.SNIProxyAddress = "proxy.h:443" :=
  unmarshalBundle_result exampleWorld "bundle.zip" exampleFiles stagingDir stagedFs
    (extractAll 0o022 stagingDir stagedFs exampleFiles).1
    (.file 0o644 exampleConfigJson) strictTls ⟨200, exampleMetadataJson⟩ exampleMetadata
    rfl rfl rfl rfl rfl rfl rfl

/-- C8: for every descriptor with host `h` and port `p`, the endpoint that
`unmarshalBundle` passes to `getSecureBundleMetadata` is `https://`, `h`, a
colon, `p` in decimal and `/metadata`; host `db.example.com` and port 9042
give `https://db.example.com:9042/metadata`. -/
theorem unmarshalBundle_endpoint (w : World) (b : String) (files : List ZipFile)
    (dir : Path) (fs0 fs1 : FS) (file : Node) (tls : TlsConfig) (h : String) (p : Int)
    (hzip : w.zipOpenReader b = .ok files)
    (htmp : TempDir w.umask w.tempNames w.fs = .ok (dir, fs0))
    (hext : extractAll w.umask dir fs0 files = (fs1, none))
    (hopen : Open fs1 (Join dir "config.json") = .ok file)
    (htls : setupTLSConfig w.credentialsOk fs1
      (sslOptions dir (w.jsonUnmarshalConfig (ReadAll file).1).1) = .ok tls)
    (hhost : (w.jsonUnmarshalConfig (ReadAll file).1).1.Host = h)
    (hport : (w.jsonUnmarshalConfig (ReadAll file).1).1.Port = p) :
    (unmarshalBundle w b).trace =
        [.setupTLSConfig (sslOptions dir (w.jsonUnmarshalConfig (ReadAll file).1).1),
         .getSecureBundleMetadata ("https://" ++ h ++ ":" ++ toString p ++ "/metadata") tls] ∧
      ∀ ca key cert : String,
        metadataURL { Host := "db.example.com", Port := 9042, CaCertLocation := ca,
                      KeyLocation := key, CertLocation := cert } =
          "https://db.example.com:9042/metadata" := by
  constructor
  · rw [unmarshalBundle_fetch w b files dir fs0 fs1 file tls hzip htmp hext hopen htls]
    simp only [metadataURL, hhost, hport]
  · intro ca key cert
    rfl

/-- Witness for C8: the example bundle, whose descriptor has host
`db.example.com` and port 9042. -/
theorem unmarshalBundle_endpoint_witness :
    (unmarshalBundle exampleWorld "bundle.zip").trace =
      [.setupTLSConfig (sslOptions stagingDir exampleConfig),
       .getSecureBundleMetadata "https://db.example.com:9042/metadata" strictTls] :=
  (unmarshalBundle_endpoint exampleWorld "bundle.zip" exampleFiles stagingDir stagedFs
    (extractAll 0o022 stagingDir stagedFs exampleFiles).1
    (.file 0o644 exampleConfigJson) strictTls "db.example.com" 9042
    rfl rfl rfl rfl rfl rfl rfl).1

/-- C6: in every run of `unmarshalBundle` that returns values, the TLS
context handed to `getSecureBundleMetadata` was built by `setupTLSConfig` with
`EnableHostVerification` set and verifies the peer at the time of the fetch,
the context in the returned `SNIConfig` has `InsecureSkipVerify` set, and the
two agree on certificate, key and CA pool. -/
theorem unmarshalBundle_trust_transition (w : World) (b : String) (cps : List String)
    (sni : SNIConfig) (h : (unmarshalBundle w b).result = .ok (cps, sni)) :
    ∃ fs1 opts url tls,
      (unmarshalBundle w b).trace =
        [.setupTLSConfig opts, .getSecureBundleMetadata url tls] ∧
      setupTLSConfig w.credentialsOk fs1 opts = .ok tls ∧
      opts.EnableHostVerification = true ∧
      tls.InsecureSkipVerify = false ∧
      sni.tlsConfig.InsecureSkipVerify = true ∧
      sni.tlsConfig.Certificate = tls.Certificate ∧
      sni.tlsConfig.Key = tls.Key ∧
      sni.tlsConfig.RootCAs = tls.RootCAs := by
  obtain ⟨files, dir, fs0, fs1, file, tls, hzip, htmp, hext, hopen, htls⟩ :=
    unmarshalBundle_ok_stages w b _ h
  have hrun := unmarshalBundle_fetch w b files dir fs0 fs1 file tls hzip htmp hext hopen htls
  rw [hrun] at h
  refine ⟨fs1, sslOptions dir (w.jsonUnmarshalConfig (ReadAll file).1).1,
    metadataURL (w.jsonUnmarshalConfig (ReadAll file).1).1, tls, ?_, htls, rfl, ?_, ?_⟩
  · rw [hrun]
  · have := setupTLSConfig_strict _ _ _ _ htls
    simpa [sslOptions] using this
  · simp only at h
    cases hmd : getSecureBundleMetadata w
        (metadataURL (w.jsonUnmarshalConfig (ReadAll file).1).1) tls with
    | error err =>
      rw [hmd] at h
      cases h
    | ok md =>
      rw [hmd] at h
      simp only [Except.ok.injEq, Prod.mk.injEq] at h
      obtain ⟨_, hsni⟩ := h
      subst hsni
      exact ⟨rfl, rfl, rfl, rfl⟩

/-- Witness for C6: the run on the example bundle. -/
theorem unmarshalBundle_trust_transition_witness :
    ∃ fs1 opts url tls,
      (unmarshalBundle exampleWorld "bundle.zip").trace =
        [.setupTLSConfig opts, .getSecureBundleMetadata url tls] ∧
      setupTLSConfig exampleWorld.credentialsOk fs1 opts = .ok tls ∧
      opts.EnableHostVerification = true ∧
      tls.InsecureSkipVerify = false ∧
      ({ strictTls with InsecureSkipVerify := true } : TlsConfig).InsecureSkipVerify = true ∧
      ({ strictTls with InsecureSkipVerify := true } : TlsConfig).Certificate = tls.Certificate ∧
      ({ strictTls with InsecureSkipVerify := true } : TlsConfig).Key = tls.Key ∧
      ({ strictTls with InsecureSkipVerify := true } : TlsConfig).RootCAs = tls.RootCAs :=
  unmarshalBundle_trust_transition exampleWorld "bundle.zip" ["10.0.0.1", "10.0.0.2"]
    { SNIProxyAddress := "proxy.h:443",
      tlsConfig := { strictTls with InsecureSkipVerify := true } } rfl

/-- C7, as the code has it: the decoded descriptor is not validated.  For a
descriptor with host `h` and port `p` of which the host is empty or the port
is zero, once the TLS context is built from the staged credential files,
`unmarshalBundle` passes the endpoint formatted from `h` and `p` to
`getSecureBundleMetadata` and returns what that call yields; the endpoint is
`https://:` followed by the port and `/metadata` for an empty host, and
`https://` followed by the host and `:0/metadata` for a zero port. -/
theorem unmarshalBundle_unvalidated_descriptor (w : World) (b : String)
    (files : List ZipFile) (dir : Path) (fs0 fs1 : FS) (file : Node) (tls : TlsConfig)
    (h : String) (p : Int)
    (hzip : w.zipOpenReader b = .ok files)
    (htmp : TempDir w.umask w.tempNames w.fs = .ok (dir, fs0))
    (hext : extractAll w.umask dir fs0 files = (fs1, none))
    (hopen : Open fs1 (Join dir "config.json") = .ok file)
    (htls : setupTLSConfig w.credentialsOk fs1
      (sslOptions dir (w.jsonUnmarshalConfig (ReadAll file).1).1) = .ok tls)
    (hhost : (w.jsonUnmarshalConfig (ReadAll file).1).1.Host = h)
    (hport : (w.jsonUnmarshalConfig (ReadAll file).1).1.Port = p)
    (hzero : h = "" ∨ p = 0) :
    (unmarshalBundle w b).trace =
        [.setupTLSConfig (sslOptions dir (w.jsonUnmarshalConfig (ReadAll file).1).1),
         .getSecureBundleMetadata ("https://" ++ h ++ ":" ++ toString p ++ "/metadata") tls] ∧
      (unmarshalBundle w b).result =
        (match getSecureBundleMetadata w
            ("https://" ++ h ++ ":" ++ toString p ++ "/metadata") tls with
        | .error err => .error err
        | .ok metadata =>
          .ok (metadata.ContactInfo.ContactPoints,
            { SNIProxyAddress := metadata.ContactInfo.SNIProxyAddress,
              tlsConfig := { tls with InsecureSkipVerify := true } })) ∧
      ("https://" ++ h ++ ":" ++ toString p ++ "/metadata" =
          "https://:" ++ toString p ++ "/metadata" ∨
        "https://" ++ h ++ ":" ++ toString p ++ "/metadata" =
          "https://" ++ h ++ ":0/metadata") := by
  have hurl : metadataURL (w.jsonUnmarshalConfig (ReadAll file).1).1 =
      "https://" ++ h ++ ":" ++ toString p ++ "/metadata" := by
    simp only [metadataURL, hhost, hport]
  rw [unmarshalBundle_fetch w b files dir fs0 fs1 file tls hzip htmp hext hopen htls, hurl]
  refine ⟨rfl, rfl, ?_⟩
  rcases hzero with hh | hp
  · left
    subst hh
    rw [String.append_empty]
    rfl
  · right
    subst hp
    have h0 : toString (0 : Int) = "0" := rfl
    rw [h0, String.append_assoc, String.append_assoc]
    rfl

/-- Witness for C7 as amended: the bundle whose descriptor leaves out host and
port. -/
theorem unmarshalBundle_unvalidated_descriptor_witness :
    (unmarshalBundle noHostWorld "bundle.zip").trace =
      [.setupTLSConfig (sslOptions stagingDir noHostConfig),
       .getSecureBundleMetadata "https://:0/metadata" strictTls] :=
  (unmarshalBundle_unvalidated_descriptor noHostWorld "bundle.zip" noHostFiles stagingDir
    stagedFs (extractAll 0o022 stagingDir stagedFs noHostFiles).1
    (.file 0o644 noHostConfigJson) strictTls "" 0 rfl rfl rfl rfl rfl rfl rfl
    (Or.inl rfl)).1

/-- C7 fails as stated: the descriptor of this bundle decodes without error
to an empty host and a zero port, no validation error is returned, the
endpoint `https://:0/metadata` is built and requested, and the error returned
is the one of the failed connection. -/
theorem unmarshalBundle_empty_host_counterexample :
    decodeConfig noHostConfigJson = (noHostConfig, none) ∧
      noHostConfig.Host = "" ∧ noHostConfig.Port = 0 ∧
      Event.getSecureBundleMetadata "https://:0/metadata" strictTls ∈
        (unmarshalBundle noHostWorld "bundle.zip").trace ∧
      (unmarshalBundle noHostWorld "bundle.zip").result =
        .error (.http "dial tcp :0: connect: connection refused") := by
  refine ⟨by decide, rfl, rfl, by decide, rfl⟩

/-- C3, as the code has it: the error of decoding `config.json` is discarded.
When decoding fails, the struct as the decoder left it is still handed to the
TLS context builder, and the call has the outcome it would have had if the
decoder had returned the same struct without an error. -/
theorem unmarshalBundle_decode_error_discarded (w : World) (b : String)
    (files : List ZipFile) (dir : Path) (fs0 fs1 : FS) (file : Node)
    (config : secureBundleConfig) (err : Error)
    (hzip : w.zipOpenReader b = .ok files)
    (htmp : TempDir w.umask w.tempNames w.fs = .ok (dir, fs0))
    (hext : extractAll w.umask dir fs0 files = (fs1, none))
    (hopen : Open fs1 (Join dir "config.json") = .ok file)
    (hdec : w.jsonUnmarshalConfig (ReadAll file).1 = (config, some err)) :
    (unmarshalBundle w b).trace.head? = some (.setupTLSConfig (sslOptions dir config)) ∧
      unmarshalBundle w b =
        unmarshalBundle
          { w with jsonUnmarshalConfig := fun x => ((w.jsonUnmarshalConfig x).1, none) } b := by
  refine ⟨?_, rfl⟩
  unfold unmarshalBundle
  simp only [hzip, htmp, hext, hopen, hdec]
  cases setupTLSConfig w.credentialsOk fs1 (sslOptions dir config) with
  | error e => rfl
  | ok tls =>
    simp only
    cases getSecureBundleMetadata w (metadataURL config) tls <;> rfl

/-- Witness for C3 as amended: the bundle whose `config.json` is not JSON. -/
theorem unmarshalBundle_decode_error_discarded_witness :
    (unmarshalBundle malformedWorld "bundle.zip").trace.head? =
      some (.setupTLSConfig (sslOptions stagingDir zeroConfig)) :=
  (unmarshalBundle_decode_error_discarded malformedWorld "bundle.zip" malformedFiles
    stagingDir stagedFs (extractAll 0o022 stagingDir stagedFs malformedFiles).1
    (.file 0o644 "not json") zeroConfig (.json "invalid character") rfl rfl rfl rfl rfl).1

/-- C3 fails as stated: `config.json` of this bundle is not JSON and decoding
returns an error, yet the zero struct is made into the endpoint
`https://:0/metadata` and into the options of the TLS context builder, which
is called with the staging directory as all three paths; the error returned
is the one of the builder. -/
theorem unmarshalBundle_malformed_descriptor_counterexample :
    malformedWorld.jsonUnmarshalConfig "not json" =
        (zeroConfig, some (.json "invalid character")) ∧
      metadataURL zeroConfig = "https://:0/metadata" ∧
      (unmarshalBundle malformedWorld "bundle.zip").trace =
        [.setupTLSConfig { CertPath := stagingDir, KeyPath := stagingDir,
                           CaPath := stagingDir, EnableHostVerification := true }] ∧
      (unmarshalBundle malformedWorld "bundle.zip").result =
        .error (.tls "unable to load credential files") := by
  refine ⟨by decide, rfl, rfl, rfl⟩

/-- C4, as the code has it: the error of decoding the response body is
discarded.  For every response whose status is not above 299, whether or not
its body decodes, `getSecureBundleMetadata` returns a nil error and the
struct as the decoder left it, zero or partly filled. -/
theorem getSecureBundleMetadata_decode_error_discarded (w : World) (endpoint : String)
    (tls : TlsConfig) (resp : Response)
    (hget : w.httpGet endpoint tls = .ok resp)
    (hstatus : resp.StatusCode ≤ 299) :
    getSecureBundleMetadata w endpoint tls = .ok (w.jsonDecodeMetadata resp.Body).1 := by
  unfold getSecureBundleMetadata
  simp only [hget]
  rw [if_neg (by omega)]

/-- Witness for C4 as amended: a 200 response whose body is not JSON, for
which decoding returns an error. -/
theorem getSecureBundleMetadata_decode_error_discarded_witness :
    (decodeMetadata "not json").2 = some (.json "invalid character") ∧
      getSecureBundleMetadata badBodyWorld "https://db.example.com:9042/metadata" strictTls =
        .ok (decodeMetadata "not json").1 :=
  ⟨by decide,
   getSecureBundleMetadata_decode_error_discarded badBodyWorld
    "https://db.example.com:9042/metadata" strictTls ⟨200, "not json"⟩ rfl (by decide)⟩

/-- C4 fails as stated: the endpoint answers 200 with a body that is not
JSON, decoding returns an error, and `getSecureBundleMetadata` returns the
zero struct with a nil error. -/
theorem getSecureBundleMetadata_malformed_body_counterexample :
    badBodyWorld.httpGet "https://db.example.com:9042/metadata" strictTls =
        .ok ⟨200, "not json"⟩ ∧
      (badBodyWorld.jsonDecodeMetadata "not json").2 = some (.json "invalid character") ∧
      getSecureBundleMetadata badBodyWorld "https://db.example.com:9042/metadata" strictTls =
        .ok zeroMetadata := by
  refine ⟨rfl, by decide, rfl⟩

/-- C2 on the code: the endpoint answers 500, and `getSecureBundleMetadata`
returns a metadata value with a nil error; `unmarshalBundle` then returns no
error, an empty contact point list and an `SNIConfig`. -/
theorem getSecureBundleMetadata_status_500_accepted :
    status500World.httpGet "https://db.example.com:9042/metadata" strictTls =
        .ok ⟨500, "Internal Server Error"⟩ ∧
      getSecureBundleMetadata status500World "https://db.example.com:9042/metadata"
        strictTls = .ok zeroMetadata ∧
      (unmarshalBundle status500World "bundle.zip").result =
        .ok ([], { SNIProxyAddress := "",
                   tlsConfig := { strictTls with InsecureSkipVerify := true } }) := by
  refine ⟨rfl, rfl, rfl⟩

/-- C1 on the code: the entry `../../evil` resolves to `/evil`, outside the
staging directory `/tmp/securezip1`; nothing is there before the call; the
entry is not rejected, `unmarshalBundle` returns no error, and afterwards
`/evil` is a file with the bytes of the entry, left behind by the removal of
the staging directory. -/
theorem unmarshalBundle_traversal_escapes :
    Join stagingDir "../../evil" = ["evil"] ∧
      within stagingDir ["evil"] = false ∧
      traversalWorld.fs ["evil"] = none ∧
      (unmarshalBundle traversalWorld "bundle.zip").fs ["evil"] = some (.file 0o644 "EVIL") ∧
      (unmarshalBundle traversalWorld "bundle.zip").result =
        .ok (["10.0.0.1", "10.0.0.2"],
          { SNIProxyAddress := "proxy.h:443",
            tlsConfig := { strictTls with InsecureSkipVerify := true } }) := by
  refine ⟨by decide, by decide, by decide, by decide, rfl⟩

/-- C10, as the code has it: when the destinations of the entries are
pairwise distinct and none of them is a regular file before the loop, then
once the loop has ended without error the file at the destination of every
entry has the bytes of the entry, and as permission bits the mode of the entry
without the bits of the umask. -/
theorem extractAll_round_trip (umask : Nat) (dir : Path) (files : List ZipFile) (fs : FS)
    (hdistinct : (files.map (fun f => Join dir f.Name)).Nodup)
    (hnew : ∀ f ∈ files, ∀ m d, fs (Join dir f.Name) ≠ some (.file m d))
    (hdone : (extractAll umask dir fs files).2 = none) :
    ∀ f ∈ files, (extractAll umask dir fs files).1 (Join dir f.Name) =
      some (.file (createMode umask f.Mode) f.Data) := by
  induction files generalizing fs with
  | nil => intro f hf; cases hf
  | cons g rest ih =>
    intro f hf
    rw [List.map_cons, List.nodup_cons] at hdistinct
    obtain ⟨hg, hrestd⟩ := hdistinct
    have hgne : ∀ x ∈ rest, Join dir x.Name ≠ Join dir g.Name := by
      intro x hx heq
      exact hg (List.mem_map.mpr ⟨x, hx, heq⟩)
    rw [extractAll_cons] at hdone ⊢
    by_cases hok : (extractEntry umask dir fs g).2 = none
    · rw [if_pos hok] at hdone ⊢
      rcases List.mem_cons.mp hf with rfl | hrest
      · rcases extractEntry_dest umask dir fs f hok with ⟨m, d, hmd, _⟩ | ⟨_, h⟩
        · exact absurd hmd (hnew f (List.mem_cons_self _ _) m d)
        · exact extractAll_keeps umask dir rest _ _ _ _ h hgne
      · refine ih _ hrestd ?_ hdone f hrest
        intro x hx m d hmd
        rcases extractEntry_other umask dir fs g _ (hgne x hx) with h | ⟨_, m1, h⟩
        · exact hnew x (List.mem_cons_of_mem _ hx) m d (h ▸ hmd)
        · rw [h] at hmd
          cases hmd
    · rw [if_neg hok] at hdone
      exact absurd hdone hok

/-- Witness for C10 as amended: the example bundle under umask 022; the key
file is staged with its bytes and its mode 0600. -/
theorem extractAll_round_trip_witness :
    (extractAll 0o022 stagingDir stagedFs exampleFiles).1 (Join stagingDir "key") =
      some (.file 0o600 "KEY") :=
  extractAll_round_trip 0o022 stagingDir exampleFiles stagedFs (by decide)
    (fun f hf m d h => by
      have hn : ∀ g ∈ exampleFiles, stagedFs (Join stagingDir g.Name) = none := by decide
      rw [hn f hf] at h
      cases h)
    (by decide) (entry "key" 0o600 "KEY") (by decide)

/-- C10 fails as stated, in two ways.  Both entries of the first archive are
named `x`: the loop ends without error under umask 0, and the staged file has
the bytes of the second entry and the mode of the first, so it equals neither
entry.  The second archive has one entry of mode 0666: under umask 022 the
loop ends without error and the staged file has mode 0644. -/
theorem extractAll_round_trip_counterexample :
    duplicateFiles = [entry "x" 0o644 "A", entry "x" 0o600 "B"] ∧
      (extractAll 0 stagingDir stagedFs duplicateFiles).2 = none ∧
      (extractAll 0 stagingDir stagedFs duplicateFiles).1 (Join stagingDir "x") =
        some (.file 0o644 "B") ∧
      (extractAll 0o022 stagingDir stagedFs [entry "y" 0o666 "A"]).2 = none ∧
      (extractAll 0o022 stagingDir stagedFs [entry "y" 0o666 "A"]).1 (Join stagingDir "y") =
        some (.file 0o644 "A") := by
  refine ⟨rfl, by decide, by decide, by decide, by decide⟩

end SecureConnect
